import Mathlib

/-!
Verification of the fetch-gateway core of `netlify/functions/fetch-url.js`.

The JavaScript source is shallowly embedded: JS strings are Lean `String`s
(manipulated through their underlying `List Char`), JS numbers produced by
`Number(...)` coercion are modelled by `JsNum` (NaN, signed infinities, or an
exact rational value; IEEE-754 rounding of decimal literals is modelled by
exact rational arithmetic), and the effectful parts (DNS lookup, the two HTTP
fetches, WHATWG URL parsing) are passed in as explicit outcome parameters, so
every function of the source becomes a total Lean function of its inputs and
of the outcomes of the external calls it performs.
-/

namespace FetchUrl

/-- Character set of JS `StrWhiteSpace` (WhiteSpace plus LineTerminator):
used by `String.prototype.trim`, by `Number(...)` coercion and by the class
`\s` in the regexes of the source. -/
def isJsWhitespace (c : Char) : Bool :=
  c == ' ' || c == '\t' || c == '\n' || c == '\r' ||
  c == '\u000B' || c == '\u000C' || c == ' ' ||
  c == ' ' || (' ' ≤ c && c ≤ ' ') ||
  c == ' ' || c == ' ' || c == ' ' ||
  c == ' ' || c == '　' || c == '﻿'

/-- JS `String.prototype.toLowerCase` restricted to the simple ASCII case
mapping (all strings handled in this development are ASCII). List level. -/
def jsLowerL (l : List Char) : List Char := l.map Char.toLower

/-- JS `String.prototype.toLowerCase` on a Lean `String`. -/
def jsToLower (s : String) : String := String.mk (jsLowerL s.data)

/-- Left part of JS `trim`: drop leading whitespace. -/
def jsTrimLeftL (l : List Char) : List Char := l.dropWhile isJsWhitespace

/-- JS `String.prototype.trim` at list level: drop whitespace at both ends. -/
def jsTrimL (l : List Char) : List Char :=
  ((l.dropWhile isJsWhitespace).reverse.dropWhile isJsWhitespace).reverse

/-- JS `String.prototype.trim` on a Lean `String`. -/
def jsTrim (s : String) : String := String.mk (jsTrimL s.data)

/-- JS `String.prototype.split` with a one-character separator, list level.
`split` keeps empty pieces: `"10...".split(".")` is `["10","","",""]` and
`"".split(".")` is `[""]`. The result is always nonempty. -/
def splitCharL (sep : Char) : List Char → List (List Char)
  | [] => [[]]
  | c :: rest =>
    let r := splitCharL sep rest
    if c == sep then [] :: r
    else (c :: r.headD []) :: r.tail

/-- JS `String.prototype.split` with a one-character separator. -/
def jsSplitChar (sep : Char) (s : String) : List String :=
  (splitCharL sep s.data).map String.mk

/-- Boolean prefix test at list level (JS `String.prototype.startsWith`,
and the anchored literal part of the `^...` regexes of the source). -/
def startsWithL : List Char → List Char → Bool
  | _, [] => true
  | [], _ :: _ => false
  | c :: cs, p :: ps => (c == p) && startsWithL cs ps

/-- JS `String.prototype.startsWith`. -/
def jsStartsWith (s pat : String) : Bool := startsWithL s.data pat.data

/-- Substring occurrence at list level: what an un-anchored regex of a plain
literal, such as `/Blocked private/.test(msg)`, computes. -/
def containsSubL (l pat : List Char) : Bool :=
  (List.range (l.length + 1)).any fun i => startsWithL (l.drop i) pat

/-- Un-anchored plain-literal regex test on a string. -/
def containsSub (s pat : String) : Bool := containsSubL s.data pat.data

/-! ### JS numbers produced by `Number(string)` coercion

`isPrivateIPv4` applies `Number` to each piece of `ip.split('.')`. `JsNum`
models the possible results: `NaN`, the two infinities, or a finite value.
Finite values are kept as exact rationals: IEEE-754 rounding of the decimal
literal to a double is not modelled (it is irrelevant for the comparisons
against the small integers 10, 172, 16, 31, 192, 168, 127, 169, 254 made by
the source, except on literals needing more than double precision). -/

inductive JsNum where
  | nan : JsNum
  | posInf : JsNum
  | negInf : JsNum
  | val : ℚ → JsNum
deriving DecidableEq, Repr

/-- JS `Number.isNaN`. -/
def jsIsNaN : JsNum → Bool
  | .nan => true
  | _ => false

/-- JS strict equality `x === n` between a number and an integer constant. -/
def jsEqInt (x : JsNum) (n : Int) : Bool :=
  match x with
  | .val q => q == (n : ℚ)
  | _ => false

/-- JS comparison `x >= n` against an integer constant (false on NaN). -/
def jsGeInt (x : JsNum) (n : Int) : Bool :=
  match x with
  | .val q => (n : ℚ) ≤ q
  | .posInf => true
  | _ => false

/-- JS comparison `x <= n` against an integer constant (false on NaN). -/
def jsLeInt (x : JsNum) (n : Int) : Bool :=
  match x with
  | .val q => q ≤ (n : ℚ)
  | .negInf => true
  | _ => false

/-- Numeric value of a decimal digit. -/
def digitVal (c : Char) : Nat := c.toNat - '0'.toNat

/-- Decimal digit test (the regex class `[0-9]`). -/
def isDecDigit (c : Char) : Bool := '0' ≤ c && c ≤ '9'

/-- Hexadecimal digit test. -/
def isHexDigit (c : Char) : Bool :=
  isDecDigit c || ('a' ≤ c && c ≤ 'f') || ('A' ≤ c && c ≤ 'F')

/-- Numeric value of a hexadecimal digit. -/
def hexDigitVal (c : Char) : Nat :=
  if isDecDigit c then digitVal c
  else if 'a' ≤ c && c ≤ 'f' then c.toNat - 'a'.toNat + 10
  else c.toNat - 'A'.toNat + 10

/-- Value of a digit sequence in the given base. -/
def digitsVal (base : Nat) (dv : Char → Nat) (l : List Char) : Nat :=
  l.foldl (fun a c => base * a + dv c) 0

/-- Value of a decimal digit sequence. -/
def decVal (l : List Char) : Nat := digitsVal 10 digitVal l

/-- Negation of a JS number. -/
def jsNeg : JsNum → JsNum
  | .nan => .nan
  | .posInf => .negInf
  | .negInf => .posInf
  | .val q => .val (-q)

/-- Parse the optional `ExponentPart` that may close a `StrDecimalLiteral`,
applying it to the mantissa already read. Anything left over makes the whole
literal `NaN`. -/
def parseExpPart (mant : ℚ) : List Char → JsNum
  | [] => .val mant
  | e :: r =>
    if e == 'e' || e == 'E' then
      let (sgn, r2) : Int × List Char :=
        match r with
        | '+' :: r2 => (1, r2)
        | '-' :: r2 => (-1, r2)
        | r2 => (1, r2)
      let digits := r2.takeWhile isDecDigit
      let rest := r2.dropWhile isDecDigit
      if digits == [] || rest != [] then .nan
      else .val (mant * (10 : ℚ) ^ (sgn * (decVal digits : Int)))
    else .nan

/-- Parse an unsigned `StrDecimalLiteral`: `Infinity`, or decimal digits with
an optional fraction and exponent. -/
def parseUnsignedDec (l : List Char) : JsNum :=
  if l == ('I' :: 'n' :: 'f' :: 'i' :: 'n' :: 'i' :: 't' :: 'y' :: []) then
    .posInf
  else
    let intPart := l.takeWhile isDecDigit
    let rest1 := l.dropWhile isDecDigit
    match rest1 with
    | '.' :: rest2 =>
      let fracPart := rest2.takeWhile isDecDigit
      let rest3 := rest2.dropWhile isDecDigit
      if intPart == [] && fracPart == [] then .nan
      else
        parseExpPart
          ((decVal intPart : ℚ) +
            (decVal fracPart : ℚ) / (10 : ℚ) ^ fracPart.length) rest3
    | _ =>
      if intPart == [] then .nan
      else parseExpPart (decVal intPart : ℚ) rest1

/-- Parse a `StrDecimalLiteral` with its optional sign. -/
def parseSignedDec : List Char → JsNum
  | '+' :: r => parseUnsignedDec r
  | '-' :: r => jsNeg (parseUnsignedDec r)
  | r => parseUnsignedDec r

/-- Parse a whitespace-trimmed nonempty numeric string: a non-decimal integer
literal (`0x`/`0o`/`0b`, unsigned by the grammar) or a signed decimal
literal. -/
def parseTrimmedNum (l : List Char) : JsNum :=
  match l with
  | '0' :: x :: rest =>
    if x == 'x' || x == 'X' then
      if rest != [] && rest.all isHexDigit then
        .val (digitsVal 16 hexDigitVal rest : ℚ)
      else .nan
    else if x == 'o' || x == 'O' then
      if rest != [] && rest.all (fun c => '0' ≤ c && c ≤ '7') then
        .val (digitsVal 8 digitVal rest : ℚ)
      else .nan
    else if x == 'b' || x == 'B' then
      if rest != [] && rest.all (fun c => c == '0' || c == '1') then
        .val (digitsVal 2 digitVal rest : ℚ)
      else .nan
    else parseSignedDec l
  | _ => parseSignedDec l

/-- JS `Number(string)` (the `ToNumber` coercion applied to a string): trim
JS whitespace; the empty remainder coerces to `0`; otherwise parse a
`StrNumericLiteral`. List level. -/
def jsToNumberL (l : List Char) : JsNum :=
  let t := jsTrimL l
  match t with
  | [] => .val 0
  | _ => parseTrimmedNum t

/-- JS `Number(string)` on a Lean `String`. -/
def jsToNumber (s : String) : JsNum := jsToNumberL s.data

/-! ### Host Classifier (source lines 9-27) -/

/-- Embedding of `isPrivateIPv4` (source lines 9-19):
split on `.`, coerce each piece with `Number`, refuse anything that is not 4
non-NaN pieces, then test membership of the RFC1918 / loopback / link-local
ranges exactly as the source's boolean expression does. -/
def isPrivateIPv4 (ip : String) : Bool :=
  let o := (jsSplitChar '.' ip).map jsToNumber
  if o.length != 4 || o.any jsIsNaN then false
  else
    jsEqInt (o.getD 0 .nan) 10 ||
    (jsEqInt (o.getD 0 .nan) 172 && jsGeInt (o.getD 1 .nan) 16 &&
      jsLeInt (o.getD 1 .nan) 31) ||
    (jsEqInt (o.getD 0 .nan) 192 && jsEqInt (o.getD 1 .nan) 168) ||
    jsEqInt (o.getD 0 .nan) 127 ||
    (jsEqInt (o.getD 0 .nan) 169 && jsEqInt (o.getD 1 .nan) 254)

/-- List-level core of `isPrivateIPv6` (JS string equality and
`startsWith` are character-sequence comparisons). -/
def isPrivateIPv6L (l : List Char) : Bool :=
  let x := jsLowerL l
  x == String.data ("::1") || startsWithL x (String.data ("fc")) ||
    startsWithL x (String.data ("fd")) ||
    startsWithL x (String.data ("fe80:"))

/-- Embedding of `isPrivateIPv6` (source lines 20-23): lowercase the textual
address, then test `::1` or a `fc` / `fd` / `fe80:` prefix. -/
def isPrivateIPv6 (ip : String) : Bool := isPrivateIPv6L ip.data

/-- List-level core of `isLocalHost`. -/
def isLocalHostL (l : List Char) : Bool :=
  let h := jsLowerL l
  h == String.data ("localhost") || h == String.data ("0.0.0.0") ||
    h == String.data ("::1")

/-- Embedding of `isLocalHost` (source lines 24-27). -/
def isLocalHost (hostname : String) : Bool := isLocalHostL hostname.data

/-! ### Resolver Guard (source lines 29-40)

`dns.lookup(hostname, { verbatim: true })` is the guard's only effect; its
outcome is a parameter: `Except.ok (address, family)` for a successful
resolution (the returned record's fields, `verbatim: true` meaning the
literal first answer's family is reported), `Except.error msg` for a
rejected lookup carrying the error's message text. The guard either throws
(`some message`) or returns normally (`none`). -/

/-- Result of `assertNotPrivateHost`, instrumented with a flag recording
whether `dns.lookup` was invoked on this run. -/
def assertNotPrivateHostT (hostname : String)
    (lookup : Except String (String × Nat)) : Option String × Bool :=
  if isLocalHost hostname then (some ("Blocked private host"), false)
  else
    let attempt : Except String Unit :=
      match lookup with
      | .error e => .error e
      | .ok (address, family) =>
        if (family == 4 && isPrivateIPv4 address) ||
           (family == 6 && isPrivateIPv6 address) then
          .error ("Blocked private address")
        else .ok ()
    match attempt with
    | .ok () => (none, true)
    | .error e =>
      if containsSub e ("Blocked private") then (some e, true)
      else (none, true)

/-- Embedding of `assertNotPrivateHost` (source lines 29-40): `some msg`
when the guard throws `msg`, `none` when it returns normally. -/
def assertNotPrivateHost (hostname : String)
    (lookup : Except String (String × Nat)) : Option String :=
  (assertNotPrivateHostT hostname lookup).1

/-! ### Bounded Fetcher (source lines 42-59)

A `fetch` call's fate is a parameter: it completes with a response, rejects
with an error, or is still pending when the cancellation timer fires (in
which case `ac.abort()` makes it reject with the abort error). A response
carries its status and the outcome of reading its body text (`res.text()`
may itself reject). The second component of `fetchWithTimeout`'s result is
the number of pending timers left behind, tracking `setTimeout` /
timer-expiry / `clearTimeout` through the `try`/`finally`. -/

structure HttpResp where
  status : Nat
  body : Except String String

/-- WHATWG `Response.ok`: status in the inclusive range 200-299. -/
def resOk (r : HttpResp) : Bool := 200 ≤ r.status && r.status ≤ 299

/-- How a `fetchWithTimeout` rejection arose. -/
inductive FetchErr where
  | aborted : FetchErr
  | netError : String → FetchErr

/-- Message text of a rejection (`AbortError`'s Node message for a timeout,
the network error's own message otherwise). -/
def fetchErrMessage : FetchErr → String
  | .aborted => "This operation was aborted"
  | .netError m => m

/-- Fate of the underlying `fetch` relative to the cancellation timer. -/
inductive FetchEvent where
  | completes : HttpResp → FetchEvent
  | fails : String → FetchEvent
  | exceedsTimeout : FetchEvent

/-- Fixed identifying user agent sent by the Bounded Fetcher
(source line 50), merged under any caller-supplied headers. -/
def userAgentToken : String := "AI-Web-Scraper/1.0 (+netlify)"

/-- Fixed accept-language header sent by the Bounded Fetcher
(source line 51). -/
def acceptLanguageValue : String := "en-US,en;q=0.9"

/-- Default timeout of `fetchWithTimeout` (source line 42, `ms = 15000`),
used by the target fetch at source line 109. -/
def fetchWithTimeoutDefaultMs : Nat := 15000

/-- Timeout passed for the robots.txt fetch (source line 65). -/
def robotsFetchTimeoutMs : Nat := 5000

/-- JS `clearTimeout`: cancels the timer if it is still pending, a no-op
otherwise — idempotent, always leaving zero pending timers. -/
def clearTimeoutPending (_pending : Nat) : Nat := 0

/-- Embedding of `fetchWithTimeout` (source lines 42-59). Returns the
settled result of the awaited fetch together with the number of pending
timers after the call: `setTimeout` arms one timer; if the fetch outruns the
timeout the timer fires (disarming itself) and aborts the fetch; the
`finally` block runs `clearTimeout` on every exit path. -/
def fetchWithTimeout (ev : FetchEvent) (ms : Nat) :
    Except FetchErr HttpResp × Nat :=
  let pendingAfterSet : Nat := 1
  let (result, pendingAfterAwait) :=
    match ev with
    | .completes r => (Except.ok r, pendingAfterSet)
    | .fails m => (Except.error (FetchErr.netError m), pendingAfterSet)
    | .exceedsTimeout => (Except.error FetchErr.aborted, pendingAfterSet - 1)
  (result, clearTimeoutPending pendingAfterAwait)

/-! ### Robots Policy Evaluator (source lines 61-86) -/

/-- Strip one trailing carriage return from a line piece. -/
def stripTrailingCR (l : List Char) : List Char :=
  match l.reverse with
  | '\r' :: r => r.reverse
  | _ => l

/-- JS `txt.split(/\r?\n/)`: split at each newline, each piece losing at
most the one carriage return that immediately preceded the newline. -/
def splitLinesL (l : List Char) : List (List Char) :=
  (splitCharL '\n' l).map stripTrailingCR

/-- The regex `/^user-agent:\s*\*/i` of source line 73: case-insensitive
literal prefix, then any run of whitespace, then a star. -/
def reUserAgentStar (line : List Char) : Bool :=
  let low := jsLowerL line
  startsWithL low (String.data ("user-agent:")) &&
    ((low.drop 11).dropWhile isJsWhitespace).headD ' ' == '*'

/-- The regex `/^user-agent:/i` of source line 74. -/
def reUserAgent (line : List Char) : Bool :=
  startsWithL (jsLowerL line) (String.data ("user-agent:"))

/-- The regex `/^disallow:/i` of source line 75. -/
def reDisallow (line : List Char) : Bool :=
  startsWithL (jsLowerL line) (String.data ("disallow:"))

/-- One iteration of the robots parsing loop (source lines 70-79). State:
whether the scan is inside a relevant (`User-agent: *`) block, and the
disallow values pushed so far. -/
def robotsStep (st : Bool × List (List Char)) (raw : List Char) :
    Bool × List (List Char) :=
  let line := jsTrimL raw
  if line.isEmpty || startsWithL line ('#' :: []) then st
  else if reUserAgentStar line then (true, st.2)
  else if reUserAgent line then (false, st.2)
  else if st.1 && reDisallow line then
    match (splitCharL ':' line).get? 1 with
    | some seg =>
      let p := jsTrimL seg
      if p.isEmpty then st else (st.1, st.2 ++ [p])
    | none => st
  else st

/-- The disallow rule list collected from a robots.txt body
(source lines 68-79), list level. -/
def robotsRulesL (txt : List Char) : List (List Char) :=
  ((splitLinesL txt).foldl robotsStep (false, [])).2

/-- The collected `RobotsRuleSet` of a robots.txt body. -/
def robotsRules (txt : String) : List String :=
  (robotsRulesL txt.data).map String.mk

/-- The allow/disallow decision made on a successfully fetched robots.txt
body (source lines 68-82): allowed when no rules were collected, otherwise
allowed iff the path starts with none of the collected prefixes. -/
def robotsDecide (txt path : String) : Bool :=
  let disallow := robotsRulesL txt.data
  if disallow.isEmpty then true
  else !(disallow.any fun d => !d.isEmpty && startsWithL path.data d)

/-- Parsed WHATWG URL record: the fields of `new URL(...)` the source
reads. `hostname` is the host without port, `host` may include the port. -/
structure URLRec where
  protocol : String
  hostname : String
  host : String
  pathname : String

/-- The robots.txt location derived at source line 64. -/
def robotsUrlOf (u : URLRec) : String :=
  u.protocol ++ "//" ++ u.host ++ "/robots.txt"

/-- Embedding of `allowedByRobots` (source lines 61-86). `parseTarget` is
the outcome of `new URL(targetUrl)` (an `Except` since the constructor can
throw), `robotsEv` the fate of the robots.txt fetch. The surrounding
`try`/`catch` turns every failure into `true`. -/
def allowedByRobots (parseTarget : Except String URLRec)
    (robotsEv : FetchEvent) : Bool :=
  match parseTarget with
  | .error _ => true
  | .ok u =>
    match (fetchWithTimeout robotsEv robotsFetchTimeoutMs).1 with
    | .error _ => true
    | .ok res =>
      if !resOk res then true
      else
        match res.body with
        | .error _ => true
        | .ok txt => robotsDecide txt u.pathname

/-! ### Gateway Orchestrator (source lines 88-118) -/

/-- The protocol allow-list `ALLOWED_PROTOCOLS` (source line 7). -/
def allowedProtocols : List String := [("http:" : String), ("https:" : String)]

/-- A response body object: `{ error: ... }` or `{ html: ... }`. -/
inductive JBody where
  | errObj : String → JBody
  | htmlObj : String → JBody
deriving DecidableEq, Repr

/-- The Netlify function response produced by `json(statusCode, bodyObj)`
(source lines 88-94). -/
structure JsonResponse where
  statusCode : Nat
  contentType : String
  body : JBody
deriving DecidableEq, Repr

/-- Embedding of the `json` helper (source lines 88-94). -/
def json (statusCode : Nat) (bodyObj : JBody) : JsonResponse :=
  { statusCode := statusCode
    contentType := "application/json; charset=utf-8"
    body := bodyObj }

/-- Embedding of the exported `handler` (source lines 96-118). External
outcomes are parameters: the `url` query parameter, the result of
`new URL(url)` (whose error message reaches the top-level `catch`), the DNS
lookup outcome, and the fates of the robots fetch and the target fetch. The
target fetch at source line 109 uses `fetchWithTimeout`'s default timeout. -/
def handler (urlParam : Option String) (parseTarget : Except String URLRec)
    (lookup : Except String (String × Nat))
    (robotsEv targetEv : FetchEvent) : JsonResponse :=
  match urlParam with
  | none => json 400 (.errObj ("URL parameter is required."))
  | some _ =>
    match parseTarget with
    | .error m => json 500 (.errObj m)
    | .ok u =>
      if !(allowedProtocols.contains u.protocol) then
        json 400 (.errObj ("Invalid URL protocol."))
      else
        match assertNotPrivateHost u.hostname lookup with
        | some m => json 500 (.errObj m)
        | none =>
          if !(allowedByRobots (.ok u) robotsEv) then
            json 403 (.errObj ("Blocked by robots.txt"))
          else
            match (fetchWithTimeout targetEv fetchWithTimeoutDefaultMs).1 with
            | .error e => json 500 (.errObj (fetchErrMessage e))
            | .ok r =>
              if !resOk r then
                json r.status (.errObj ("Upstream HTTP " ++ Nat.repr r.status))
              else
                match r.body with
                | .error e => json 500 (.errObj e)
                | .ok html => json 200 (.htmlObj html)

/-! ### Spec-side notions used to state the claims -/

/-- A nonempty string of decimal digits: one octet of a dotted-decimal
IPv4 string. -/
def isDigitChunk (s : String) : Bool :=
  !s.data.isEmpty && s.data.all isDecDigit

/-- Numeric value of a decimal digit string. -/
def decStrVal (s : String) : Nat := decVal s.data

/-- The private / loopback / link-local ranges named by the spec
(10.0.0.0/8, 172.16.0.0/12, 192.168.0.0/16, 127.0.0.0/8, 169.254.0.0/16),
as a predicate on the values of the first two octets. -/
def specCidrPrivate (v1 v2 : Nat) : Prop :=
  v1 = 10 ∨ (v1 = 172 ∧ 16 ≤ v2 ∧ v2 ≤ 31) ∨ (v1 = 192 ∧ v2 = 168) ∨
    v1 = 127 ∨ (v1 = 169 ∧ v2 = 254)

/-- The claim's notion of well-formed `isPrivateIPv4` input: exactly 4
numeric octets, i.e. the dot-split yields exactly four nonempty decimal
digit chunks. -/
def isNumericQuad (s : String) : Bool :=
  (splitCharL '.' s.data).length == 4 &&
    (splitCharL '.' s.data).all (fun p => !p.isEmpty && p.all isDecDigit)

/-! ### Helper lemmas -/

lemma splitCharL_ne_nil (sep : Char) (l : List Char) : splitCharL sep l ≠ [] := by
  cases l with
  | nil => simp [splitCharL]
  | cons c rest =>
    simp only [splitCharL]
    split <;> simp

lemma splitCharL_no_sep {sep : Char} {l : List Char}
    (h : ∀ c ∈ l, c ≠ sep) : splitCharL sep l = [l] := by
  induction l with
  | nil => rfl
  | cons c rest ih =>
    have hc : (c == sep) = false := by
      simp only [beq_eq_false_iff_ne, ne_eq]
      exact h c (List.mem_cons_self c rest)
    have hr := ih fun x hx => h x (List.mem_cons_of_mem c hx)
    simp [splitCharL, hc, hr]

lemma splitCharL_append_cons {sep : Char} (a rest : List Char)
    (h : ∀ c ∈ a, c ≠ sep) :
    splitCharL sep (a ++ sep :: rest) = a :: splitCharL sep rest := by
  induction a with
  | nil => simp [splitCharL]
  | cons c tl ih =>
    have hc : (c == sep) = false := by
      simp only [beq_eq_false_iff_ne, ne_eq]
      exact h c (List.mem_cons_self c tl)
    have hr := ih fun x hx => h x (List.mem_cons_of_mem c hx)
    simp only [List.cons_append, splitCharL, hc, hr]
    simp [hr]

lemma dropWhile_append_not {p : Char → Bool} {c : Char} (hc : p c = false)
    (xs ys : List Char) :
    List.dropWhile p (xs ++ c :: ys) = List.dropWhile p xs ++ c :: ys := by
  induction xs with
  | nil => simp [List.dropWhile_cons, hc]
  | cons x tl ih =>
    by_cases hx : p x = true
    · simp [List.dropWhile_cons, hx, ih]
    · simp [List.dropWhile_cons, hx]

lemma jsTrimL_eq_self {l : List Char}
    (h : ∀ c ∈ l, isJsWhitespace c = false) : jsTrimL l = l := by
  unfold jsTrimL
  have h1 : l.dropWhile isJsWhitespace = l := by
    cases l with
    | nil => rfl
    | cons c tl => simp [List.dropWhile_cons, h c (List.mem_cons_self c tl)]
  rw [h1]
  have h2 : l.reverse.dropWhile isJsWhitespace = l.reverse := by
    cases hr : l.reverse with
    | nil => rfl
    | cons c tl =>
      have hc : c ∈ l := by
        rw [← List.mem_reverse, hr]; exact List.mem_cons_self c tl
      simp [List.dropWhile_cons, h c hc]
  rw [h2, List.reverse_reverse]

lemma jsTrimL_cons_ws {c : Char} {l : List Char}
    (hc : isJsWhitespace c = true) : jsTrimL (c :: l) = jsTrimL l := by
  unfold jsTrimL
  simp [List.dropWhile_cons, hc]

lemma jsTrimL_head_colon (d : Char) (m t : List Char)
    (hd : isJsWhitespace d = false) :
    jsTrimL (d :: (m ++ ':' :: t)) =
      d :: (m ++ ':' :: (t.reverse.dropWhile isJsWhitespace).reverse) := by
  unfold jsTrimL
  have h1 : (d :: (m ++ ':' :: t)).dropWhile isJsWhitespace =
      d :: (m ++ ':' :: t) := by
    simp [List.dropWhile_cons, hd]
  rw [h1]
  have hcolon : isJsWhitespace ':' = false := by decide
  have h2 : (d :: (m ++ ':' :: t)).reverse =
      t.reverse ++ ':' :: (m.reverse ++ [d]) := by
    simp [List.reverse_cons, List.reverse_append, List.append_assoc]
  rw [h2, dropWhile_append_not hcolon]
  simp [List.reverse_append]

lemma startsWithL_append_self (p y : List Char) :
    startsWithL (p ++ y) p = true := by
  induction p with
  | nil => cases y <;> rfl
  | cons c tl ih => simp [startsWithL, ih]

lemma startsWithL_nil_cons (p : Char) (ps : List Char) :
    startsWithL [] (p :: ps) = false := rfl

lemma jsLowerL_cons (c : Char) (l : List Char) :
    jsLowerL (c :: l) = Char.toLower c :: jsLowerL l := rfl

lemma startsWithL_lower_elim {l : List Char} {p : Char} {ps : List Char}
    (h : startsWithL (jsLowerL l) (p :: ps) = true) :
    ∃ c cs, l = c :: cs ∧ Char.toLower c = p ∧
      startsWithL (jsLowerL cs) ps = true := by
  cases l with
  | nil => simp [jsLowerL, startsWithL] at h
  | cons c cs =>
    rw [jsLowerL_cons] at h
    simp only [startsWithL, Bool.and_eq_true, beq_iff_eq] at h
    exact ⟨c, cs, rfl, h.1, h.2⟩

lemma char_toNat_le_of_le {a b : Char} (h : a ≤ b) : a.toNat ≤ b.toNat := by
  rw [Char.le_def] at h
  exact h

lemma toNat_out_of_isJsWhitespace {c : Char} (h : isJsWhitespace c = true) :
    c.toNat < 33 ∨ 126 < c.toNat := by
  unfold isJsWhitespace at h
  simp only [Bool.or_eq_true, beq_iff_eq, Bool.and_eq_true,
    decide_eq_true_eq] at h
  rcases h with
    ((((((((((((((h | h) | h) | h) | h) | h) | h) | h) | ⟨h1, -⟩) | h) | h) |
      h) | h) | h) | h)
  all_goals
    first
    | (subst h; decide)
    | (right
       have hv : (8192 : Nat) ≤ c.toNat := char_toNat_le_of_le h1
       omega)

lemma isJsWhitespace_eq_false_of_bounds {c : Char}
    (hlo : 33 ≤ c.toNat) (hhi : c.toNat ≤ 126) : isJsWhitespace c = false := by
  cases hw : isJsWhitespace c with
  | false => rfl
  | true =>
    rcases toNat_out_of_isJsWhitespace hw with h | h <;> omega

lemma isDecDigit_bounds {c : Char} (h : isDecDigit c = true) :
    48 ≤ c.toNat ∧ c.toNat ≤ 57 := by
  unfold isDecDigit at h
  simp only [Bool.and_eq_true, decide_eq_true_eq] at h
  exact ⟨char_toNat_le_of_le h.1, char_toNat_le_of_le h.2⟩

lemma isJsWhitespace_of_digit {c : Char} (h : isDecDigit c = true) :
    isJsWhitespace c = false := by
  obtain ⟨h1, h2⟩ := isDecDigit_bounds h
  exact isJsWhitespace_eq_false_of_bounds (by omega) (by omega)

lemma digit_ne_of_not_digit {c d : Char} (h : isDecDigit c = true)
    (hd : isDecDigit d = false) : c ≠ d := by
  intro he
  subst he
  rw [h] at hd
  simp at hd

lemma parseUnsignedDec_digits {l : List Char} (hne : l ≠ [])
    (h : ∀ c ∈ l, isDecDigit c = true) :
    parseUnsignedDec l = .val ((decVal l : Nat) : ℚ) := by
  have hinf :
      (l == ('I' :: 'n' :: 'f' :: 'i' :: 'n' :: 'i' :: 't' :: 'y' :: [])) =
        false := by
    rw [beq_eq_false_iff_ne]
    intro he
    have : isDecDigit 'I' = true := by
      apply h
      rw [he]
      exact List.mem_cons_self _ _
    exact absurd this (by decide)
  have htake : l.takeWhile isDecDigit = l := List.takeWhile_eq_self_iff.mpr h
  have hdrop : l.dropWhile isDecDigit = [] := List.dropWhile_eq_nil_iff.mpr h
  have hempty : (l == ([] : List Char)) = false := by
    rw [beq_eq_false_iff_ne]
    exact hne
  unfold parseUnsignedDec
  rw [hinf]
  simp only [htake, hdrop, hempty]
  rfl

lemma parseSignedDec_head_digit {c : Char} {r : List Char}
    (hc : isDecDigit c = true) :
    parseSignedDec (c :: r) = parseUnsignedDec (c :: r) := by
  have h1 : c ≠ '+' := digit_ne_of_not_digit hc (by decide)
  have h2 : c ≠ '-' := digit_ne_of_not_digit hc (by decide)
  unfold parseSignedDec
  split
  · rename_i heq
    injection heq with he _
    exact absurd he h1
  · rename_i heq
    injection heq with he _
    exact absurd he h2
  · rfl

lemma parseTrimmedNum_digits {c : Char} {r : List Char}
    (hc : isDecDigit c = true) (h : ∀ x ∈ r, isDecDigit x = true) :
    parseTrimmedNum (c :: r) = parseSignedDec (c :: r) := by
  unfold parseTrimmedNum
  split
  · rename_i x rest heq
    injection heq with he1 he2
    have hx : isDecDigit x = true := by
      apply h
      rw [he2]
      exact List.mem_cons_self _ _
    have hx1 : (x == 'x') = false := by
      rw [beq_eq_false_iff_ne]; exact digit_ne_of_not_digit hx (by decide)
    have hx2 : (x == 'X') = false := by
      rw [beq_eq_false_iff_ne]; exact digit_ne_of_not_digit hx (by decide)
    have hx3 : (x == 'o') = false := by
      rw [beq_eq_false_iff_ne]; exact digit_ne_of_not_digit hx (by decide)
    have hx4 : (x == 'O') = false := by
      rw [beq_eq_false_iff_ne]; exact digit_ne_of_not_digit hx (by decide)
    have hx5 : (x == 'b') = false := by
      rw [beq_eq_false_iff_ne]; exact digit_ne_of_not_digit hx (by decide)
    have hx6 : (x == 'B') = false := by
      rw [beq_eq_false_iff_ne]; exact digit_ne_of_not_digit hx (by decide)
    rw [hx1, hx2, hx3, hx4, hx5, hx6]
    simp only [Bool.or_self]
    rw [if_neg (by simp), if_neg (by simp), if_neg (by simp), he1, he2]
  · rfl

lemma jsToNumberL_digits {l : List Char} (hne : l ≠ [])
    (h : ∀ c ∈ l, isDecDigit c = true) :
    jsToNumberL l = .val ((decVal l : Nat) : ℚ) := by
  have htrim : jsTrimL l = l :=
    jsTrimL_eq_self fun c hc => isJsWhitespace_of_digit (h c hc)
  unfold jsToNumberL
  rw [htrim]
  cases l with
  | nil => exact absurd rfl hne
  | cons c r =>
    have hc : isDecDigit c = true := h c (List.mem_cons_self c r)
    have hr : ∀ x ∈ r, isDecDigit x = true :=
      fun x hx => h x (List.mem_cons_of_mem c hx)
    simp only
    rw [parseTrimmedNum_digits hc hr, parseSignedDec_head_digit hc]
    exact parseUnsignedDec_digits (by simp) h

lemma skipGuard_false_of_lower {c : Char} {cs : List Char} {p : Char}
    (hu : Char.toLower c = p) (hp : p ≠ '#') :
    ((c :: cs).isEmpty || startsWithL (c :: cs) ('#' :: [])) = false := by
  have hcne : (c == '#') = false := by
    rw [beq_eq_false_iff_ne]
    intro he
    subst he
    have hph : p = '#' := by
      rw [← hu]
      decide
    exact hp hph
  simp [startsWithL, hcne]

lemma reUserAgent_false_of_head {c : Char} {cs : List Char}
    (hd : Char.toLower c ≠ 'u') : reUserAgent (c :: cs) = false := by
  unfold reUserAgent
  have hdata : String.data ("user-agent:") =
      'u' :: String.data ("ser-agent:") := rfl
  rw [hdata, jsLowerL_cons]
  simp [startsWithL, hd]

lemma reUserAgentStar_false_of_head {c : Char} {cs : List Char}
    (hd : Char.toLower c ≠ 'u') : reUserAgentStar (c :: cs) = false := by
  unfold reUserAgentStar
  have hdata : String.data ("user-agent:") =
      'u' :: String.data ("ser-agent:") := rfl
  rw [hdata, jsLowerL_cons]
  simp [startsWithL, hd]

lemma robotsStep_eq_of_skip {st : Bool × List (List Char)} {raw : List Char}
    (h : jsTrimL raw = [] ∨ startsWithL (jsTrimL raw) ('#' :: []) = true) :
    robotsStep st raw = st := by
  simp only [robotsStep]
  rcases h with h | h
  · rw [h]
    simp
  · rw [h]
    simp

lemma robotsStep_eq_of_uaStar {st : Bool × List (List Char)}
    {raw : List Char} (h : reUserAgentStar (jsTrimL raw) = true) :
    robotsStep st raw = (true, st.2) := by
  have h1 : startsWithL (jsLowerL (jsTrimL raw))
      (String.data ("user-agent:")) = true := by
    unfold reUserAgentStar at h
    exact ((Bool.and_eq_true _ _).mp h).1
  have hdata : String.data ("user-agent:") =
      'u' :: String.data ("ser-agent:") := rfl
  rw [hdata] at h1
  obtain ⟨c, cs, hline, hu, -⟩ := startsWithL_lower_elim h1
  have hguard : ((jsTrimL raw).isEmpty ||
      startsWithL (jsTrimL raw) ('#' :: [])) = false := by
    rw [hline]
    exact skipGuard_false_of_lower hu (by decide)
  simp only [robotsStep]
  rw [hguard, h]
  simp

lemma robotsStep_eq_of_uaOther {st : Bool × List (List Char)}
    {raw : List Char} (hua : reUserAgent (jsTrimL raw) = true)
    (hstar : reUserAgentStar (jsTrimL raw) = false) :
    robotsStep st raw = (false, st.2) := by
  have h1 : startsWithL (jsLowerL (jsTrimL raw))
      (String.data ("user-agent:")) = true := hua
  have hdata : String.data ("user-agent:") =
      'u' :: String.data ("ser-agent:") := rfl
  rw [hdata] at h1
  obtain ⟨c, cs, hline, hu, -⟩ := startsWithL_lower_elim h1
  have hguard : ((jsTrimL raw).isEmpty ||
      startsWithL (jsTrimL raw) ('#' :: [])) = false := by
    rw [hline]
    exact skipGuard_false_of_lower hu (by decide)
  simp only [robotsStep]
  rw [hguard, hstar, hua]
  simp

lemma robotsStep_eq_of_disallow {st : Bool × List (List Char)}
    {raw seg : List Char} (hrel : st.1 = true)
    (hdis : reDisallow (jsTrimL raw) = true)
    (hseg : (splitCharL ':' (jsTrimL raw)).get? 1 = some seg)
    (hne : jsTrimL seg ≠ []) :
    robotsStep st raw = (st.1, st.2 ++ [jsTrimL seg]) := by
  have h1 : startsWithL (jsLowerL (jsTrimL raw))
      (String.data ("disallow:")) = true := hdis
  have hdata : String.data ("disallow:") =
      'd' :: String.data ("isallow:") := rfl
  rw [hdata] at h1
  obtain ⟨c, cs, hline, hu, -⟩ := startsWithL_lower_elim h1
  have hguard : ((jsTrimL raw).isEmpty ||
      startsWithL (jsTrimL raw) ('#' :: [])) = false := by
    rw [hline]
    exact skipGuard_false_of_lower hu (by decide)
  have hstar : reUserAgentStar (jsTrimL raw) = false := by
    rw [hline]
    exact reUserAgentStar_false_of_head (by rw [hu]; decide)
  have hua : reUserAgent (jsTrimL raw) = false := by
    rw [hline]
    exact reUserAgent_false_of_head (by rw [hu]; decide)
  have hpe : (jsTrimL seg).isEmpty = false := by
    cases hh : jsTrimL seg with
    | nil => exact absurd hh hne
    | cons a t => rfl
  simp only [robotsStep]
  rw [hguard, hstar, hua, hrel, hdis, hseg]
  simp [hpe]

lemma robotsStep_rules_inv {st : Bool × List (List Char)} {raw : List Char}
    (h : ∀ d ∈ st.2, d ≠ []) : ∀ d ∈ (robotsStep st raw).2, d ≠ [] := by
  intro d hd
  simp only [robotsStep] at hd
  split at hd
  · exact h d hd
  · split at hd
    · exact h d hd
    · split at hd
      · exact h d hd
      · split at hd
        · split at hd
          · split at hd
            · exact h d hd
            · rename_i seg hseg hpe
              rcases List.mem_append.mp hd with hh | hh
              · exact h d hh
              · have hdd : d = jsTrimL seg := by simpa using hh
                intro hnil
                apply hpe
                rw [← hdd, hnil]
                rfl
          · exact h d hd
        · exact h d hd

lemma foldl_robotsStep_inv (lines : List (List Char)) :
    ∀ st : Bool × List (List Char), (∀ d ∈ st.2, d ≠ []) →
      ∀ d ∈ (lines.foldl robotsStep st).2, d ≠ [] := by
  induction lines with
  | nil => intro st h; exact h
  | cons l ls ih =>
    intro st h
    rw [List.foldl_cons]
    exact ih _ (robotsStep_rules_inv h)

lemma robotsRulesL_mem_ne_nil {txt : List Char} :
    ∀ d ∈ robotsRulesL txt, d ≠ [] := by
  unfold robotsRulesL
  exact foldl_robotsStep_inv _ _ (by simp)

lemma robotsDecide_eq_false_iff (txt path : String) :
    robotsDecide txt path = false ↔
      ∃ d ∈ robotsRules txt, jsStartsWith path d = true := by
  unfold robotsDecide
  by_cases hd : robotsRulesL txt.data = []
  · simp [hd, robotsRules]
  · have hie : (robotsRulesL txt.data).isEmpty = false := by
      cases hh : robotsRulesL txt.data with
      | nil => exact absurd hh hd
      | cons a t => rfl
    simp only [hie, Bool.false_eq_true, if_false, Bool.not_eq_false']
    rw [List.any_eq_true]
    constructor
    · rintro ⟨d, hdm, hdp⟩
      simp only [Bool.and_eq_true] at hdp
      refine ⟨String.mk d, ?_, hdp.2⟩
      unfold robotsRules
      exact List.mem_map.mpr ⟨d, hdm, rfl⟩
    · rintro ⟨s, hsm, hsw⟩
      unfold robotsRules at hsm
      rcases List.mem_map.mp hsm with ⟨d, hdm, hde⟩
      refine ⟨d, hdm, ?_⟩
      have hdne : d ≠ [] := robotsRulesL_mem_ne_nil d hdm
      have hdie : d.isEmpty = false := by
        cases hh : d with
        | nil => exact absurd hh hdne
        | cons a t => rfl
      have hsw2 : startsWithL path.data d = true := by
        rw [← hde] at hsw
        exact hsw
      simp [hdie, hsw2]

lemma robotsDecide_of_rules_nil {txt : String}
    (h : robotsRules txt = []) : ∀ path, robotsDecide txt path = true := by
  intro path
  have hl : robotsRulesL txt.data = [] := by
    unfold robotsRules at h
    exact List.map_eq_nil_iff.mp h
  unfold robotsDecide
  simp [hl]

lemma jsToLower_data (s : String) : (jsToLower s).data = jsLowerL s.data := rfl

lemma digitChunk_elim {s : String} (h : isDigitChunk s = true) :
    s.data ≠ [] ∧ ∀ c ∈ s.data, isDecDigit c = true := by
  unfold isDigitChunk at h
  simp only [Bool.and_eq_true, Bool.not_eq_true', List.all_eq_true] at h
  refine ⟨?_, h.2⟩
  intro he
  rw [he] at h
  simp at h

lemma digitChunk_no_dot {s : String} (h : isDigitChunk s = true) :
    ∀ c ∈ s.data, c ≠ '.' := by
  intro c hc
  exact digit_ne_of_not_digit ((digitChunk_elim h).2 c hc) (by decide)

lemma ipv4_range_eval (v1 v2 : Nat) (hs : specCidrPrivate v1 v2) :
    (jsEqInt (.val (v1 : ℚ)) 10 ||
      (jsEqInt (.val (v1 : ℚ)) 172 && jsGeInt (.val (v2 : ℚ)) 16 &&
        jsLeInt (.val (v2 : ℚ)) 31) ||
      (jsEqInt (.val (v1 : ℚ)) 192 && jsEqInt (.val (v2 : ℚ)) 168) ||
      jsEqInt (.val (v1 : ℚ)) 127 ||
      (jsEqInt (.val (v1 : ℚ)) 169 && jsEqInt (.val (v2 : ℚ)) 254)) =
      true := by
  rcases hs with h | ⟨h1, h2, h3⟩ | ⟨h1, h2⟩ | h | ⟨h1, h2⟩
  · subst h
    norm_num [jsEqInt]
  · subst h1
    have hge : (16 : ℚ) ≤ (v2 : ℚ) := by exact_mod_cast h2
    have hle : (v2 : ℚ) ≤ (31 : ℚ) := by exact_mod_cast h3
    norm_num [jsEqInt, jsGeInt, jsLeInt, hge, hle]
  · subst h1
    subst h2
    norm_num [jsEqInt]
  · subst h
    norm_num [jsEqInt]
  · subst h1
    subst h2
    norm_num [jsEqInt]

/-! ## The claims -/

/-- Claim C2: for every hostname equal to `localhost`, `0.0.0.0` or `::1` in
any letter case, the Resolver Guard throws `Blocked private host` without
invoking `dns.lookup` (its outcome is irrelevant), and the gateway returns
the corresponding error response whatever the fates of the robots fetch and
the target fetch would have been — so the failure precedes any network
call. -/
theorem localName_blocked_before_network (h : String)
    (hl : jsToLower h = ("localhost" : String) ∨
      jsToLower h = ("0.0.0.0" : String) ∨
      jsToLower h = ("::1" : String)) :
    (∀ lookup, assertNotPrivateHostT h lookup =
      (some ("Blocked private host"), false)) ∧
    (∀ (s : String) (u : URLRec) lookup robotsEv targetEv,
      u.hostname = h → allowedProtocols.contains u.protocol = true →
      handler (some s) (.ok u) lookup robotsEv targetEv =
        json 500 (.errObj ("Blocked private host"))) := by
  have hloc : isLocalHost h = true := by
    unfold isLocalHost isLocalHostL
    rcases hl with h1 | h1 | h1 <;>
      (rw [String.ext_iff, jsToLower_data] at h1; simp [h1])
  have hT : ∀ lookup, assertNotPrivateHostT h lookup =
      (some ("Blocked private host"), false) := by
    intro lookup
    unfold assertNotPrivateHostT
    rw [hloc]
    simp
  refine ⟨hT, ?_⟩
  intro s u lookup robotsEv targetEv hh hp
  have hg : assertNotPrivateHost u.hostname lookup =
      some ("Blocked private host") := by
    unfold assertNotPrivateHost
    rw [hh, hT lookup]
  simp only [handler, hp, hg]
  rfl

/-- Claim C2 witness: `LoCalHost` is blocked with `Blocked private host`
before any lookup, and the gateway rejects it for arbitrary fetch fates. -/
theorem localName_blocked_before_network_witness :
    assertNotPrivateHostT ("LoCalHost") (.error ("x")) =
      (some ("Blocked private host"), false) ∧
    handler (some ("http://LoCalHost/"))
      (.ok { protocol := "http:", hostname := "LoCalHost",
             host := "LoCalHost", pathname := "/" })
      (.error ("x")) (.fails ("r")) (.fails ("t")) =
      json 500 (.errObj ("Blocked private host")) :=
  ⟨(localName_blocked_before_network ("LoCalHost")
      (Or.inl (by decide))).1 _,
   (localName_blocked_before_network ("LoCalHost")
      (Or.inl (by decide))).2 _ _ _ _ _ rfl (by decide)⟩

/-- Claim C1: for a hostname that is not a local name, the guard blocks
with `Blocked private address` exactly when the DNS lookup succeeds and the
resolved address is private for its family (family 4 via `isPrivateIPv4`,
family 6 via `isPrivateIPv6`), and it does not fail when the lookup itself
errors (with a genuine resolver message, i.e. one that is not the guard's
own `Blocked private` sentinel) — fail-open on resolution failure,
fail-closed on successful-but-private resolution. -/
theorem guard_resolution_policy (h : String) (hn : isLocalHost h = false) :
    (∀ address family,
      assertNotPrivateHost h (.ok (address, family)) =
        (if (family == 4 && isPrivateIPv4 address) ||
            (family == 6 && isPrivateIPv6 address) then
          some ("Blocked private address")
         else none)) ∧
    (∀ msg, containsSub msg ("Blocked private") = false →
      assertNotPrivateHost h (.error msg) = none) := by
  constructor
  · intro address family
    unfold assertNotPrivateHost assertNotPrivateHostT
    rw [hn]
    have hcs : containsSub ("Blocked private address")
        ("Blocked private") = true := by decide
    by_cases hp : ((family == 4 && isPrivateIPv4 address) ||
        (family == 6 && isPrivateIPv6 address)) = true
    · simp [hp, hcs]
    · rw [Bool.not_eq_true] at hp
      simp [hp]
  · intro msg hm
    unfold assertNotPrivateHost assertNotPrivateHostT
    rw [hn]
    simp [hm]

/-- Claim C1 witness: a public hostname resolving to the private
`10.0.0.1` (family 4) is blocked, and the same hostname with a failing
lookup (NXDOMAIN-style message) passes the guard. -/
theorem guard_resolution_policy_witness :
    assertNotPrivateHost ("example.com") (.ok (("10.0.0.1"), 4)) =
      some ("Blocked private address") ∧
    assertNotPrivateHost ("example.com")
      (.error ("getaddrinfo ENOTFOUND example.com")) = none := by
  constructor
  · have h := (guard_resolution_policy ("example.com") (by decide)).1
      ("10.0.0.1") 4
    rw [h]
    decide
  · exact (guard_resolution_policy ("example.com") (by decide)).2
      ("getaddrinfo ENOTFOUND example.com") (by decide)

/-- Claim C9: every textual address of the form `::ffff:...` (in
particular every IPv4-mapped IPv6 address `::ffff:a.b.c.d`) is classified
as not private by `isPrivateIPv6`, so the guard lets a hostname through
when its lookup resolves to such a family-6 address even though it embeds
a private IPv4 address. -/
theorem ipv4_mapped_ipv6_not_blocked (s : String) (h : String)
    (hn : isLocalHost h = false) :
    isPrivateIPv6 (("::ffff:") ++ s) = false ∧
    assertNotPrivateHost h (.ok ((("::ffff:") ++ s), 6)) = none := by
  have h6 : isPrivateIPv6 (("::ffff:") ++ s) = false := by
    unfold isPrivateIPv6
    have hdata : (("::ffff:") ++ s).data =
        ':' :: ':' :: 'f' :: 'f' :: 'f' :: 'f' :: ':' :: s.data := by
      rw [String.data_append]
      rfl
    rw [hdata]
    rfl
  refine ⟨h6, ?_⟩
  unfold assertNotPrivateHost assertNotPrivateHostT
  rw [hn]
  simp [h6]

/-- Claim C9 witness: `::ffff:10.0.0.1` (the IPv4-mapped form of the
private `10.0.0.1`) is not classified private, and a hostname resolving to
it at family 6 passes the guard. -/
theorem ipv4_mapped_ipv6_not_blocked_witness :
    isPrivateIPv6 (("::ffff:") ++ ("10.0.0.1")) = false ∧
    assertNotPrivateHost ("example.com")
      (.ok ((("::ffff:") ++ ("10.0.0.1")), 6)) = none :=
  ipv4_mapped_ipv6_not_blocked ("10.0.0.1") ("example.com") (by decide)

/-- Claim C3 counterexample: `10...` is not 4 numeric octets (three of its
dot-chunks are empty), yet `isPrivateIPv4` returns `true` on it, because JS
`Number('')` coerces the empty chunk to `0` rather than `NaN`, so the
malformed input is read as `10.0.0.0`. -/
theorem isPrivateIPv4_malformed_counterexample :
    isNumericQuad ("10...") = false ∧ isPrivateIPv4 ("10...") = true := by
  decide

/-- Claim C3 (amended): `isPrivateIPv4` returns `true` for every
dotted-decimal IPv4 string whose octets lie in 10.0.0.0/8, 172.16.0.0/12,
192.168.0.0/16, 127.0.0.0/8 or 169.254.0.0/16; `false` for `8.8.8.8` and
`1.1.1.1`; and `false` for every input whose dot-split does not have
exactly 4 chunks or has a chunk that JS `Number` coerces to `NaN`. (Inputs
with exactly 4 chunks that all coerce to numbers — e.g. empty chunks,
which coerce to 0 — are classified by the coerced values instead, see the
counterexample.) -/
theorem isPrivateIPv4_classification :
    (∀ s1 s2 s3 s4 : String,
      isDigitChunk s1 = true → isDigitChunk s2 = true →
      isDigitChunk s3 = true → isDigitChunk s4 = true →
      decStrVal s1 ≤ 255 → decStrVal s2 ≤ 255 →
      decStrVal s3 ≤ 255 → decStrVal s4 ≤ 255 →
      specCidrPrivate (decStrVal s1) (decStrVal s2) →
      isPrivateIPv4 (s1 ++ (".") ++ s2 ++ (".") ++ s3 ++ (".") ++ s4) =
        true) ∧
    isPrivateIPv4 ("8.8.8.8") = false ∧
    isPrivateIPv4 ("1.1.1.1") = false ∧
    (∀ s : String,
      (splitCharL '.' s.data).length ≠ 4 ∨
        (∃ p ∈ splitCharL '.' s.data, jsToNumberL p = JsNum.nan) →
      isPrivateIPv4 s = false) := by
  refine ⟨?_, by decide, by decide, ?_⟩
  · intro s1 s2 s3 s4 h1 h2 h3 h4 _ _ _ _ hspec
    obtain ⟨hne1, hd1⟩ := digitChunk_elim h1
    obtain ⟨hne2, hd2⟩ := digitChunk_elim h2
    obtain ⟨hne3, hd3⟩ := digitChunk_elim h3
    obtain ⟨hne4, hd4⟩ := digitChunk_elim h4
    have hdata :
        (s1 ++ (".") ++ s2 ++ (".") ++ s3 ++ (".") ++ s4).data =
          s1.data ++ '.' :: (s2.data ++ '.' :: (s3.data ++ '.' ::
            s4.data)) := by
      have hdot : String.data (".") = ['.'] := rfl
      simp [String.data_append, hdot, List.append_assoc]
    have hsplit :
        splitCharL '.' (s1 ++ (".") ++ s2 ++ (".") ++ s3 ++ (".") ++
            s4).data = [s1.data, s2.data, s3.data, s4.data] := by
      rw [hdata, splitCharL_append_cons _ _ (digitChunk_no_dot h1),
        splitCharL_append_cons _ _ (digitChunk_no_dot h2),
        splitCharL_append_cons _ _ (digitChunk_no_dot h3),
        splitCharL_no_sep (digitChunk_no_dot h4)]
    unfold isPrivateIPv4 jsSplitChar
    rw [hsplit]
    have hn1 := jsToNumberL_digits hne1 hd1
    have hn2 := jsToNumberL_digits hne2 hd2
    have hn3 := jsToNumberL_digits hne3 hd3
    have hn4 := jsToNumberL_digits hne4 hd4
    have hmap :
        (([s1.data, s2.data, s3.data, s4.data].map String.mk).map
          jsToNumber) =
          [JsNum.val ((decVal s1.data : Nat) : ℚ),
           JsNum.val ((decVal s2.data : Nat) : ℚ),
           JsNum.val ((decVal s3.data : Nat) : ℚ),
           JsNum.val ((decVal s4.data : Nat) : ℚ)] := by
      simp only [List.map_cons, List.map_nil]
      rw [show jsToNumber (String.mk s1.data) = jsToNumberL s1.data from
        rfl, show jsToNumber (String.mk s2.data) = jsToNumberL s2.data from
        rfl, show jsToNumber (String.mk s3.data) = jsToNumberL s3.data from
        rfl, show jsToNumber (String.mk s4.data) = jsToNumberL s4.data from
        rfl, hn1, hn2, hn3, hn4]
    rw [hmap]
    simp only [List.length_cons, List.length_nil, List.getD, List.get?,
      List.any_cons, List.any_nil, jsIsNaN]
    exact ipv4_range_eval (decVal s1.data) (decVal s2.data) hspec
  · intro s hbad
    have hcond :
        (((jsSplitChar '.' s).map jsToNumber).length != 4 ||
          ((jsSplitChar '.' s).map jsToNumber).any jsIsNaN) = true := by
      rcases hbad with hlen | ⟨p, hpm, hpn⟩
      · have hl : ((jsSplitChar '.' s).map jsToNumber).length =
            (splitCharL '.' s.data).length := by
          simp [jsSplitChar]
        apply Bool.or_eq_true_iff.mpr
        left
        rw [bne_iff_ne]
        rw [hl]
        exact hlen
      · apply Bool.or_eq_true_iff.mpr
        right
        apply List.any_eq_true.mpr
        refine ⟨jsToNumber (String.mk p), ?_, ?_⟩
        · apply List.mem_map.mpr
          refine ⟨String.mk p, ?_, rfl⟩
          unfold jsSplitChar
          exact List.mem_map.mpr ⟨p, hpm, rfl⟩
        · have : jsToNumber (String.mk p) = jsToNumberL p := rfl
          rw [this, hpn]
          rfl
    simp only [isPrivateIPv4]
    rw [hcond]
    simp

/-- Claim C3 witness: the amended theorem applied at `10.0.0.1`, a
10.0.0.0/8 address built from the digit chunks `10`, `0`, `0`, `1`. -/
theorem isPrivateIPv4_classification_witness :
    isPrivateIPv4 (("10") ++ (".") ++ ("0") ++ (".") ++ ("0") ++ (".") ++
      ("1")) = true :=
  isPrivateIPv4_classification.1 ("10") ("0") ("0") ("1") (by decide)
    (by decide) (by decide) (by decide) (by decide) (by decide)
    (by decide) (by decide) (Or.inl (by decide))

/-- Claim C8: `fetchWithTimeout` leaves no pending cancellation timer on
any exit path (completion, rejection, or timeout — the `finally` clearing
is idempotent even when the timer has already fired), a fetch that outruns
its timeout is aborted and fails with the abort (`RequestTimeout`) error,
and the timeouts are 15000 ms by default (used for the target fetch) and
5000 ms for the robots.txt fetch. -/
theorem fetchWithTimeout_timer_cleared :
    (∀ ev ms, (fetchWithTimeout ev ms).2 = 0) ∧
    (∀ ms, (fetchWithTimeout .exceedsTimeout ms).1 =
      .error .aborted) ∧
    fetchWithTimeoutDefaultMs = 15000 ∧ robotsFetchTimeoutMs = 5000 := by
  refine ⟨?_, ?_, rfl, rfl⟩
  · intro ev ms
    cases ev <;> rfl
  · intro ms
    rfl

/-- Claim C5: robots evaluation is fail-open — a URL-parse failure, a
failed or timed-out robots fetch, a non-2xx robots response, or a failing
body read all make `allowedByRobots` return `true`; being a total Boolean
function of its outcome parameters, it never itself throws. -/
theorem allowedByRobots_fail_open (u : URLRec) :
    (∀ (m : String) robotsEv, allowedByRobots (.error m) robotsEv = true) ∧
    (∀ m : String, allowedByRobots (.ok u) (.fails m) = true) ∧
    allowedByRobots (.ok u) .exceedsTimeout = true ∧
    (∀ (st : Nat) (body : Except String String),
      resOk { status := st, body := body } = false →
      allowedByRobots (.ok u)
        (.completes { status := st, body := body }) = true) ∧
    (∀ (st : Nat) (m : String),
      allowedByRobots (.ok u)
        (.completes { status := st, body := .error m }) = true) := by
  refine ⟨fun m robotsEv => rfl, fun m => rfl, rfl, ?_, ?_⟩
  · intro st body hnok
    simp [allowedByRobots, fetchWithTimeout, hnok]
  · intro st m
    by_cases hok : resOk { status := st, body := (.error m :
        Except String String) } = true
    · simp [allowedByRobots, fetchWithTimeout, hok]
    · rw [Bool.not_eq_true] at hok
      simp [allowedByRobots, fetchWithTimeout, hok]

/-- Claim C5 witness: a 404 robots response and a robots fetch rejection
both yield an allowed verdict. -/
theorem allowedByRobots_fail_open_witness :
    allowedByRobots
      (.ok { protocol := "http:", hostname := "example.com",
             host := "example.com", pathname := "/x" })
      (.completes { status := 404, body := .ok ("nope") }) = true ∧
    allowedByRobots
      (.ok { protocol := "http:", hostname := "example.com",
             host := "example.com", pathname := "/x" })
      (.fails ("connect ETIMEDOUT")) = true :=
  ⟨(allowedByRobots_fail_open _).2.2.2.1 404 (.ok ("nope")) (by decide),
   (allowedByRobots_fail_open _).2.1 ("connect ETIMEDOUT")⟩

/-- Claim C7: once a request has passed URL parsing, protocol validation,
the host guard and the robots check, a non-OK upstream status `st` is
passed through unchanged as HTTP `st` with body
`{ error: "Upstream HTTP st" }`, and an HTTP 200 response with a body is
returned as status 200 with `{ html: body }`. -/
theorem upstream_status_passthrough (s : String) (u : URLRec)
    (lookup : Except String (String × Nat)) (robotsEv : FetchEvent)
    (hp : allowedProtocols.contains u.protocol = true)
    (hg : assertNotPrivateHost u.hostname lookup = none)
    (hr : allowedByRobots (.ok u) robotsEv = true) :
    (∀ (st : Nat) (body : Except String String),
      resOk { status := st, body := body } = false →
      handler (some s) (.ok u) lookup robotsEv
          (.completes { status := st, body := body }) =
        json st (.errObj (("Upstream HTTP ") ++ Nat.repr st))) ∧
    (∀ body : String,
      handler (some s) (.ok u) lookup robotsEv
          (.completes { status := 200, body := .ok body }) =
        json 200 (.htmlObj body)) := by
  have hp2 : u.protocol ∈ allowedProtocols := by
    simpa using hp
  constructor
  · intro st body hnok
    simp [handler, hp2, hg, hr, fetchWithTimeout, hnok]
  · intro body
    have hok : resOk { status := 200, body := (.ok body :
        Except String String) } = true := rfl
    simp [handler, hp2, hg, hr, fetchWithTimeout, hok]

/-- Claim C7 witness: with a public target, a 404 upstream is passed
through as `{ error: "Upstream HTTP 404" }` with status 404, and a 200
upstream body comes back as `{ html: "<html>ok</html>" }` with status
200. -/
theorem upstream_status_passthrough_witness :
    handler (some ("http://example.com/x"))
      (.ok { protocol := "http:", hostname := "example.com",
             host := "example.com", pathname := "/x" })
      (.ok (("93.184.216.34"), 4)) (.fails ("no robots"))
      (.completes { status := 404, body := .ok ("not found") }) =
      json 404 (.errObj ("Upstream HTTP 404")) ∧
    handler (some ("http://example.com/x"))
      (.ok { protocol := "http:", hostname := "example.com",
             host := "example.com", pathname := "/x" })
      (.ok (("93.184.216.34"), 4)) (.fails ("no robots"))
      (.completes { status := 200, body := .ok ("<html>ok</html>") }) =
      json 200 (.htmlObj ("<html>ok</html>")) := by
  constructor
  · have h := (upstream_status_passthrough ("http://example.com/x")
      { protocol := "http:", hostname := "example.com",
        host := "example.com", pathname := "/x" }
      (.ok (("93.184.216.34"), 4)) (.fails ("no robots"))
      (by decide) (by decide) rfl).1 404 (.ok ("not found")) (by decide)
    rw [h]
    rfl
  · exact (upstream_status_passthrough ("http://example.com/x")
      { protocol := "http:", hostname := "example.com",
        host := "example.com", pathname := "/x" }
      (.ok (("93.184.216.34"), 4)) (.fails ("no robots"))
      (by decide) (by decide) rfl).2 ("<html>ok</html>")

/-- Claim C4: the robots evaluator's decision on a fetched body — blank
and `#` lines are skipped, a `User-agent: *` line opens the relevant
block, any other `User-agent:` line closes it, and while relevant a
`Disallow:` line with a nonempty (trimmed) value is accumulated; the path
is disallowed exactly when it starts with one of the collected prefixes;
`/private/data` is disallowed and `/public` allowed under
`User-agent: * / Disallow: /private`; and with no collected rules every
path is allowed. -/
theorem robots_parse_and_decide :
    (∀ txt path : String, (robotsDecide txt path = false ↔
      ∃ d ∈ robotsRules txt, jsStartsWith path d = true)) ∧
    (∀ txt : String, robotsRules txt = [] →
      ∀ path, robotsDecide txt path = true) ∧
    robotsDecide ("User-agent: *\nDisallow: /private")
      ("/private/data") = false ∧
    robotsDecide ("User-agent: *\nDisallow: /private") ("/public") =
      true ∧
    (∀ (st : Bool × List (List Char)) (raw : List Char),
      jsTrimL raw = [] ∨ startsWithL (jsTrimL raw) ('#' :: []) = true →
      robotsStep st raw = st) ∧
    (∀ (st : Bool × List (List Char)) (raw : List Char),
      reUserAgentStar (jsTrimL raw) = true →
      robotsStep st raw = (true, st.2)) ∧
    (∀ (st : Bool × List (List Char)) (raw : List Char),
      reUserAgent (jsTrimL raw) = true →
      reUserAgentStar (jsTrimL raw) = false →
      robotsStep st raw = (false, st.2)) ∧
    (∀ (st : Bool × List (List Char)) (raw seg : List Char),
      st.1 = true → reDisallow (jsTrimL raw) = true →
      (splitCharL ':' (jsTrimL raw)).get? 1 = some seg →
      jsTrimL seg ≠ [] →
      robotsStep st raw = (st.1, st.2 ++ [jsTrimL seg])) :=
  ⟨robotsDecide_eq_false_iff,
   fun _ h path => robotsDecide_of_rules_nil h path,
   by decide, by decide,
   fun _ _ h => robotsStep_eq_of_skip h,
   fun _ _ h => robotsStep_eq_of_uaStar h,
   fun _ _ h1 h2 => robotsStep_eq_of_uaOther h1 h2,
   fun _ _ _ h1 h2 h3 h4 => robotsStep_eq_of_disallow h1 h2 h3 h4⟩

/-- Claim C4 witness: the opening clause applied to the concrete line
`User-agent: *` from the empty initial state. -/
theorem robots_parse_and_decide_witness :
    robotsStep (false, ([] : List (List Char)))
      (String.data ("User-agent: *")) = (true, []) :=
  robots_parse_and_decide.2.2.2.2.2.1 (false, [])
    (String.data ("User-agent: *")) (by decide)

/-- Claim C6 counterexample: a robots.txt block addressed to the proxy's
own user-agent token `AI-Web-Scraper/1.0 (+netlify)` contributes nothing —
its `Disallow: /private` is not collected and `/private/data` stays
allowed, contradicting the claim that the rule set covers blocks matching
either `*` or the proxy's own token. -/
theorem own_agent_block_ignored_counterexample :
    robotsRules (("User-agent: ") ++ userAgentToken ++
      ("\nDisallow: /private")) = [] ∧
    robotsDecide (("User-agent: ") ++ userAgentToken ++
      ("\nDisallow: /private")) ("/private/data") = true := by
  decide

/-- Claim C6 (amended): the collected rule set is the Disallow prefixes of
blocks opened by `User-agent: *` only: every other `User-agent:` line —
including one naming the proxy's own user-agent token — closes the
relevant block, so a block addressed to the proxy's own token contributes
no rules. -/
theorem own_agent_block_ignored :
    (∀ (st : Bool × List (List Char)) (raw : List Char),
      reUserAgent (jsTrimL raw) = true →
      reUserAgentStar (jsTrimL raw) = false →
      robotsStep st raw = (false, st.2)) ∧
    robotsStep (true, ([] : List (List Char)))
      (String.data (("User-agent: ") ++ userAgentToken)) =
      (false, []) ∧
    robotsRules (("User-agent: ") ++ userAgentToken ++
      ("\nDisallow: /private")) = [] :=
  ⟨fun _ _ h1 h2 => robotsStep_eq_of_uaOther h1 h2, by decide, by decide⟩

/-- Claim C6 witness: the closing clause applied to a `User-agent:` line
naming another crawler, from inside a relevant block. -/
theorem own_agent_block_ignored_witness :
    robotsStep (true, ([] : List (List Char)))
      (String.data ("User-agent: Googlebot")) = (false, []) :=
  own_agent_block_ignored.1 (true, [])
    (String.data ("User-agent: Googlebot")) (by decide) (by decide)

lemma stripTrailingCR_append_colon (x u : List Char) :
    ∃ t, stripTrailingCR (x ++ ':' :: u) = x ++ ':' :: t := by
  unfold stripTrailingCR
  rcases hu : u.reverse with _ | ⟨h, tl⟩
  · have hu0 : u = [] := by
      have h2 := congrArg List.reverse hu
      simpa using h2
    subst hu0
    have hrev : (x ++ ':' :: ([] : List Char)).reverse =
        ':' :: x.reverse := by simp
    rw [hrev]
    exact ⟨[], rfl⟩
  · have hrev : (x ++ ':' :: u).reverse = h :: (tl ++ ':' :: x.reverse) := by
      rw [List.reverse_append]
      simp only [List.reverse_cons]
      rw [show (u.reverse ++ [':']) = h :: (tl ++ [':']) from by
        rw [hu]; rfl]
      simp
    rw [hrev]
    by_cases hh : h = '\r'
    · subst hh
      refine ⟨tl.reverse, ?_⟩
      simp
    · split
      · rename_i heq
        injection heq with he _
        exact absurd he hh
      · exact ⟨u, rfl⟩

lemma reDisallow_of_prefix (z : List Char) :
    reDisallow (String.data ("Disallow: ") ++ z) = true := by
  unfold reDisallow
  have h1 : jsLowerL (String.data ("Disallow: ") ++ z) =
      String.data ("disallow:") ++ (' ' :: jsLowerL z) := by
    unfold jsLowerL
    rw [List.map_append]
    have h2 : List.map Char.toLower (String.data ("Disallow: ")) =
        String.data ("disallow: ") := by decide
    rw [h2]
    rfl
  rw [h1]
  exact startsWithL_append_self _ _

/-- Claim C10: a `Disallow:` line whose path value itself contains a colon
is truncated there — for the robots body
`User-agent: * / Disallow: <a>:<b>` with `a` colon-free and nonblank, the
single collected rule is the trimmed `a` (the text between the line's
first and second colons), not the full path value. -/
theorem disallow_value_truncated_at_colon (a b : String)
    (hca : ∀ c ∈ a.data, c ≠ ':') (hna : ∀ c ∈ a.data, c ≠ '\n')
    (hnb : ∀ c ∈ b.data, c ≠ '\n') (hta : jsTrimL a.data ≠ []) :
    robotsRules (("User-agent: *\nDisallow: ") ++ a ++ (":") ++ b) =
      [jsTrim a] := by
  have hdata : (("User-agent: *\nDisallow: ") ++ a ++ (":") ++ b).data =
      String.data ("User-agent: *") ++ '\n' ::
        (String.data ("Disallow: ") ++ a.data ++ ':' :: b.data) := by
    have hlit : String.data ("User-agent: *\nDisallow: ") =
        String.data ("User-agent: *") ++ '\n' ::
          String.data ("Disallow: ") := by decide
    have hcol : String.data (":") = [':'] := rfl
    simp [String.data_append, hlit, hcol, List.append_assoc]
  have hsplit : splitCharL '\n'
      ((("User-agent: *\nDisallow: ") ++ a ++ (":") ++ b).data) =
      [String.data ("User-agent: *"),
       String.data ("Disallow: ") ++ a.data ++ ':' :: b.data] := by
    rw [hdata]
    rw [splitCharL_append_cons _ _ (by decide)]
    rw [splitCharL_no_sep ?_]
    intro c hc
    rcases List.mem_append.mp hc with hc1 | hc2
    · rcases List.mem_append.mp hc1 with hc3 | hc4
      · have hD : ∀ x ∈ String.data ("Disallow: "), x ≠ '\n' := by decide
        exact hD c hc3
      · exact hna c hc4
    · rcases List.mem_cons.mp hc2 with hc3 | hc4
      · rw [hc3]
        decide
      · exact hnb c hc4
  obtain ⟨t, ht⟩ := stripTrailingCR_append_colon
    (String.data ("Disallow: ") ++ a.data) b.data
  have hlines : splitLinesL
      ((("User-agent: *\nDisallow: ") ++ a ++ (":") ++ b).data) =
      [String.data ("User-agent: *"),
       (String.data ("Disallow: ") ++ a.data) ++ ':' :: t] := by
    unfold splitLinesL
    rw [hsplit]
    simp only [List.map_cons, List.map_nil]
    rw [show stripTrailingCR (String.data ("User-agent: *")) =
      String.data ("User-agent: *") from by decide]
    rw [show String.data ("Disallow: ") ++ a.data ++ ':' :: b.data =
      (String.data ("Disallow: ") ++ a.data) ++ ':' :: b.data from by
        simp [List.append_assoc]]
    rw [ht]
  have hstep1 : robotsStep (false, ([] : List (List Char)))
      (String.data ("User-agent: *")) = (true, []) := by decide
  have htrim : jsTrimL ((String.data ("Disallow: ") ++ a.data) ++
      ':' :: t) = (String.data ("Disallow: ") ++ a.data) ++
      ':' :: (t.reverse.dropWhile isJsWhitespace).reverse := by
    have hshape : (String.data ("Disallow: ") ++ a.data) ++ ':' :: t =
        'D' :: ((String.data ("isallow: ") ++ a.data) ++ ':' :: t) := by
      rfl
    rw [hshape, jsTrimL_head_colon 'D' _ _ (by decide)]
    rfl
  have hdis : reDisallow (jsTrimL ((String.data ("Disallow: ") ++
      a.data) ++ ':' :: t)) = true := by
    rw [htrim]
    rw [show (String.data ("Disallow: ") ++ a.data) ++
      ':' :: (t.reverse.dropWhile isJsWhitespace).reverse =
      String.data ("Disallow: ") ++ (a.data ++
        ':' :: (t.reverse.dropWhile isJsWhitespace).reverse) from by
      simp [List.append_assoc]]
    exact reDisallow_of_prefix _
  have hseg : (splitCharL ':' (jsTrimL ((String.data ("Disallow: ") ++
      a.data) ++ ':' :: t))).get? 1 = some (' ' :: a.data) := by
    rw [htrim]
    rw [show (String.data ("Disallow: ") ++ a.data) ++
      ':' :: (t.reverse.dropWhile isJsWhitespace).reverse =
      String.data ("Disallow") ++ ':' :: ((' ' :: a.data) ++
        ':' :: (t.reverse.dropWhile isJsWhitespace).reverse) from by
      simp [List.append_assoc]]
    rw [splitCharL_append_cons _ _ (by decide)]
    rw [splitCharL_append_cons _ _ ?_]
    · rfl
    · intro c hc
      rcases List.mem_cons.mp hc with hc1 | hc2
      · rw [hc1]
        decide
      · exact hca c hc2
  have hne2 : jsTrimL (' ' :: a.data) ≠ [] := by
    rw [jsTrimL_cons_ws (by decide)]
    exact hta
  have hstep2 : robotsStep (true, ([] : List (List Char)))
      ((String.data ("Disallow: ") ++ a.data) ++ ':' :: t) =
      (true, [jsTrimL (' ' :: a.data)]) := by
    have h := @robotsStep_eq_of_disallow (true, [])
      ((String.data ("Disallow: ") ++ a.data) ++ ':' :: t)
      (' ' :: a.data) rfl hdis hseg hne2
    simpa using h
  unfold robotsRules robotsRulesL
  rw [hlines]
  simp only [List.foldl_cons, List.foldl_nil]
  rw [hstep1, hstep2]
  rw [jsTrimL_cons_ws (by decide)]
  rfl

/-- Claim C10 witness: `Disallow: /a:b` collects exactly `/a`. -/
theorem disallow_value_truncated_at_colon_witness :
    robotsRules (("User-agent: *\nDisallow: ") ++ ("/a") ++ (":") ++
      ("b")) = [("/a" : String)] := by
  have h := disallow_value_truncated_at_colon ("/a") ("b") (by decide)
    (by decide) (by decide) (by decide)
  rw [h]
  decide

end FetchUrl
